import Mathlib

/-!
# Shallow embedding of the `is31fl3729` LED-matrix driver

This file embeds the driver crate's two source files (`src/lib.rs` and
`src/devices.rs`) into Lean and proves properties about it.

Modelling conventions:
* All `u8` quantities are `ℕ`; wherever the Rust code performs arithmetic
  on a `u8` that can overflow, the embedding takes the result `% 256`.
* A run of the driver against a fault-free bus is modelled by the list of
  i2c transactions it performs (`Tx`), together with an explicit register
  file (`DevState`) for the operations that read the device back
  (`shutdown`, `check_open_short`, `setup`).
* Delays (`delay_ms`) have no observable effect on the bus and are not
  modelled.
* The only floating-point quantity in the crate (the `f32` percentage of
  `set_percent`) is modelled as an exact rational `ℚ`; the Rust
  `as u8` float-to-integer cast is the saturating truncation toward zero,
  embedded as `f32_to_u8`.
-/

namespace IS31FL3729Drv

/-- Register address constants from `mod addresses` in `src/lib.rs`. -/
def addresses.PWM_BASE_REGISTER : ℕ := 0x01

def addresses.PWM_LEN : ℕ := 0x8F

def addresses.SCALING_BASE_REGISTER : ℕ := 0x90

def addresses.SCALING_LEN : ℕ := 0x10

def addresses.CONFIG_REGISTER : ℕ := 0xA0

def addresses.GCC_REGISTER : ℕ := 0xA1

def addresses.SPREAD_SPECTRUM_REGISTER : ℕ := 0xB1

def addresses.PWM_FREQ_REGISTER : ℕ := 0xB2

def addresses.OPEN_SHORT_BASE_REGISTER : ℕ := 0xB3

def addresses.OPEN_SHORT_LEN : ℕ := 0x12

def addresses.RESET_REGISTER : ℕ := 0xCF

def addresses.RESET : ℕ := 0xAE

/-- One i2c transaction issued by the driver: either a plain write of a
buffer (whose first byte is the register address) or a write-then-read of
`rlen` bytes after writing `wbuf`. The 7-bit peripheral address is the
same for every transaction of a device and is omitted. -/
inductive Tx where
  | write (buf : List ℕ) : Tx
  | writeRead (wbuf : List ℕ) (rlen : ℕ) : Tx
  deriving DecidableEq, Repr

/-- The error type `Error<I2cError>` of `src/lib.rs`, restricted to the
locally raised variants (transport errors do not occur on the fault-free
runs we model). -/
inductive Error where
  | InvalidLocation (v : ℕ) : Error
  | InvalidFrame (v : ℕ) : Error
  deriving DecidableEq, Repr

/-- The driver configuration part of `struct IS31FL3729`: matrix bounds
and the `(x, y) ↦ channel offset` mapping function (`calc_pixel`). The
bus handle and peripheral address are not part of the model. -/
structure IS31FL3729 where
  width : ℕ
  height : ℕ
  calc_pixel : ℕ → ℕ → ℕ

/-- `IS31FL3729::pixel` from `src/lib.rs`: bounds-check the coordinates
(`x > width` / `y > height` reject), compute the channel offset, check it
against the PWM table length, and write the brightness to
`PWM_BASE_REGISTER + offset`. Returns the driver result together with the
list of bus writes performed (empty on the early-return error paths,
which precede any bus access in the source). -/
def pixel (d : IS31FL3729) (x y brightness : ℕ) : Except Error Unit × List Tx :=
  if d.width < x then (.error (.InvalidLocation x), [])
  else if d.height < y then (.error (.InvalidLocation y), [])
  else
    let p := d.calc_pixel x y
    if addresses.PWM_LEN ≤ p then (.error (.InvalidLocation p), [])
    else (.ok (), [Tx.write [(addresses.PWM_BASE_REGISTER + p) % 256, brightness]])

/-- `IS31FL3729::fill_matrix` from `src/lib.rs`: requires the input slice
to hold at least `PWM_LEN` bytes (the slice `brightnesses[..=PWM_LEN-1]`
panics otherwise, modelled as `none`); on success it issues one block
write of `PWM_BASE_REGISTER` followed by the first `PWM_LEN` input
bytes. -/
def fill_matrix (brightnesses : List ℕ) : Option (List Tx) :=
  if addresses.PWM_LEN ≤ brightnesses.length then
    some [Tx.write (addresses.PWM_BASE_REGISTER :: brightnesses.take addresses.PWM_LEN)]
  else
    none

/-- `IS31FL3729::set_scaling` from `src/lib.rs`: a single write of
`scale` to register `SCALING_BASE_REGISTER + cs`, the register address
computed in `u8` arithmetic (hence `% 256`); no bounds check on `cs`. -/
def set_scaling (cs scale : ℕ) : List Tx :=
  [Tx.write [(addresses.SCALING_BASE_REGISTER + cs) % 256, scale]]

/-- The state of the i2c peripheral visible to the driver during a
fault-free run: a register file, plus the 18-byte diagnostic bitmap
`diag` the chip returns when the driver performs a write-then-read at
`OPEN_SHORT_BASE_REGISTER`. -/
structure DevState where
  regs : ℕ → ℕ
  diag : List ℕ

/-- Effect of `write_u8 register value` on the register file. -/
def writeRegS (s : DevState) (r v : ℕ) : DevState :=
  { s with regs := fun a => if a = r then v else s.regs a }

/-- Store `data` into a register file starting at register `r`, the
device auto-incrementing the register address (taken modulo 256). -/
def applyWrite (f : ℕ → ℕ) (r : ℕ) : List ℕ → (ℕ → ℕ)
  | [] => f
  | v :: rest => applyWrite (fun a => if a = r % 256 then v else f a) (r + 1) rest

/-- Effect of a block write (first byte the start register) on the
register file. -/
def writeBlockS (s : DevState) (buf : List ℕ) : DevState :=
  match buf with
  | [] => s
  | r :: data => { s with regs := applyWrite s.regs r data }

/-- `IS31FL3729::shutdown` from `src/lib.rs`: read the config register,
clear bit 0 and set it to 1 exactly when leaving shutdown
(`(config_val & 0xFE) | (if yes { 0 } else { 1 })`), write it back.
Returns the new device state and the write transaction issued. -/
def shutdownStep (s : DevState) (yes : Bool) : DevState × Tx :=
  let config_val := s.regs addresses.CONFIG_REGISTER
  let v := (config_val &&& 0xFE) ||| (if yes then 0 else 1)
  (writeRegS s addresses.CONFIG_REGISTER v, Tx.write [addresses.CONFIG_REGISTER, v])

/-- The state transformer of `IS31FL3729::shutdown` on a fault-free run. -/
def shutdown (s : DevState) (yes : Bool) : DevState :=
  (shutdownStep s yes).1

/-- `IS31FL3729::setup` from `src/lib.rs` on a fault-free run: reset,
enter shutdown, write `0x40` to the global current control register,
block-write `SCALING_LEN` bytes of `0xFF` starting at the register named
by `buf[0]` — which the source sets to `PWM_BASE_REGISTER` — and leave
shutdown. Returns the final device state and the transaction list
(delays omitted). -/
def setup (s : DevState) : DevState × List Tx :=
  let s1 := writeRegS s addresses.RESET_REGISTER addresses.RESET
  let step2 := shutdownStep s1 true
  let s3 := writeRegS step2.1 addresses.GCC_REGISTER 0x40
  let buf := addresses.PWM_BASE_REGISTER :: List.replicate addresses.SCALING_LEN 0xFF
  let s4 := writeBlockS s3 buf
  let step5 := shutdownStep s4 false
  (step5.1,
    [Tx.write [addresses.RESET_REGISTER, addresses.RESET],
     step2.2,
     Tx.write [addresses.GCC_REGISTER, 0x40],
     Tx.write buf,
     step5.2])

/-- `IS31FL3729::check_open_short` from `src/lib.rs` on a fault-free
run: save the config and global-current-control registers, set GCC to
the probe current `0x01`, set the OSDE field (bits 1–2) of config to
`0b01` (open) or `0b10` (short), fetch the 18-byte diagnostic buffer by
write-then-read at `OPEN_SHORT_BASE_REGISTER`, then write back
`old_config & 0xF9` and the saved GCC value. Returns the buffer and the
final device state. -/
def check_open_short (s : DevState) (isOpen : Bool) : List ℕ × DevState :=
  let old_config := s.regs addresses.CONFIG_REGISTER
  let old_gcc := s.regs addresses.GCC_REGISTER
  let osde : ℕ := if isOpen then 0b01 else 0b10
  let s1 := writeRegS s addresses.GCC_REGISTER 0x01
  let s2 := writeRegS s1 addresses.CONFIG_REGISTER ((old_config &&& 0xF9) ||| (osde <<< 1))
  let buf := s2.diag
  let s3 := writeRegS s2 addresses.CONFIG_REGISTER (old_config &&& 0xF9)
  let s4 := writeRegS s3 addresses.GCC_REGISTER old_gcc
  (buf, s4)

/-- `IS31FL3729::check_opens` from `src/lib.rs`. -/
def check_opens (s : DevState) : List ℕ × DevState :=
  check_open_short s true

/-- The device configuration built by `SevenSegment::configure` in
`src/devices.rs`: width 9, height 8, `calc_pixel = x + 0x10 * y` (in
`u8` arithmetic). -/
def sevenSegDevice : IS31FL3729 :=
  { width := 9, height := 8, calc_pixel := fun x y => (x + 0x10 * y) % 256 }

/-- Sequence a list of already-computed fallible steps the way Rust's
`?` operator does in `set_digit` / `set_percent`: concatenate the
transactions of the successful prefix and stop at the first error. -/
def seqAll : List (Except Error Unit × List Tx) → Except Error Unit × List Tx
  | [] => (.ok (), [])
  | step :: rest =>
    match step with
    | (.error e, t) => (.error e, t)
    | (.ok _, t) =>
      let tail := seqAll rest
      (tail.1, t ++ tail.2)

/-- The 36-entry seven-segment glyph table `lookup` of
`SevenSegment::set_digit` in `src/devices.rs` (rows: digits 0–9 then
letters A–Z with `n/a` placeholders), each row the 7 segment booleans. -/
def lookup : List (List Bool) :=
  [[true, true, true, true, true, true, false],
   [false, true, true, false, false, false, false],
   [true, true, false, true, true, false, true],
   [true, true, true, true, false, false, true],
   [false, true, true, false, false, true, true],
   [true, false, true, true, false, true, true],
   [true, false, true, true, true, true, true],
   [true, true, true, false, false, false, false],
   [true, true, true, true, true, true, true],
   [true, true, true, false, false, true, true],
   [true, true, true, false, true, true, true],
   [false, false, true, true, true, true, true],
   [true, false, false, true, true, true, false],
   [false, true, true, true, true, false, true],
   [true, false, false, true, true, true, true],
   [true, false, false, false, true, true, true],
   [true, false, true, true, true, true, false],
   [false, true, true, false, true, true, true],
   [false, false, true, false, false, false, false],
   [false, true, true, true, true, false, false],
   [false, false, false, false, false, false, true],
   [false, false, false, true, true, true, false],
   [false, false, false, false, false, false, true],
   [false, false, true, false, true, false, true],
   [false, false, true, true, true, false, true],
   [true, true, false, false, true, true, true],
   [false, false, false, false, false, false, true],
   [false, false, false, false, true, false, true],
   [true, false, true, true, false, true, true],
   [false, false, false, true, true, true, true],
   [false, false, true, true, true, false, false],
   [false, false, false, false, false, false, true],
   [false, false, false, false, false, false, true],
   [false, false, false, false, false, false, true],
   [false, true, true, true, false, true, true],
   [true, true, false, true, true, false, true]]

/-- Brightness written for one glyph segment:
`lookup[(val%36) as usize][seg]` mapped to `0xFF` / `0x00`. -/
def segBright (val seg : ℕ) : ℕ :=
  if ((lookup.getD (val % 36) []).getD seg false) then 0xFF else 0x00

/-- `SevenSegment::set_digit` from `src/devices.rs`: write the 7 glyph
segment brightnesses of `val % 36` to `pixel(which, seg, ·)` for
`seg = 0..7`, then the decimal-point segment `pixel(which, 7, ·)`. -/
def set_digit (d : IS31FL3729) (which val : ℕ) (point : Bool) : Except Error Unit × List Tx :=
  seqAll
    (((List.range 7).map fun seg => pixel d which seg (segBright val seg)) ++
      [pixel d which 7 (if point then 0xFF else 0x00)])

/-- Model of Rust's `as u8` cast applied to an `f32`, on exact rational
inputs: saturating truncation toward zero (negative values give 0,
values of 256 or more give 255). -/
def f32_to_u8 (q : ℚ) : ℕ :=
  if q ≤ 0 then 0 else min 255 (Int.toNat ⌊q⌋)

/-- `SevenSegment::set_percent` from `src/devices.rs`, with the `f32`
argument modelled as an exact rational. `base = which * 3` in `u8`
arithmetic. Branches: `val >= 100` renders "100"; `val < 10` blanks the
8 rows of the base position then renders units (decimal point on) and
tenths at `base+1` / `base+2` (zeros when `val <= 0`); otherwise three
`set_digit` calls, all at `base`. -/
def set_percent (d : IS31FL3729) (which : ℕ) (val : ℚ) : Except Error Unit × List Tx :=
  let base := (which * 3) % 256
  if 100 ≤ val then
    seqAll [set_digit d base 1 false,
            set_digit d ((base + 1) % 256) 0 false,
            set_digit d ((base + 2) % 256) 0 false]
  else if val < 10 then
    seqAll (((List.range 8).map fun seg => pixel d base seg 0x00) ++
      (if 0 < val then
        [set_digit d ((base + 1) % 256) (f32_to_u8 val % 10) true,
         set_digit d ((base + 2) % 256) (f32_to_u8 (10 * val) % 10) false]
      else
        [set_digit d ((base + 1) % 256) 0 true,
         set_digit d ((base + 2) % 256) 0 false]))
  else
    seqAll [set_digit d base (f32_to_u8 (val / 10) % 10) false,
            set_digit d base (f32_to_u8 val % 10) true,
            set_digit d base (f32_to_u8 (10 * val) % 10) false]

/-- Replay a transaction list against a register file: single and block
writes update the registers they name; write-then-read transactions
leave the file unchanged. Used to state what a trace leaves on the
chip. -/
def applyTx (f : ℕ → ℕ) : Tx → (ℕ → ℕ)
  | Tx.write [] => f
  | Tx.write (r :: data) => applyWrite f r data
  | Tx.writeRead _ _ => f

/-- Replay a whole trace, left to right. -/
def applyTxs (f : ℕ → ℕ) (ts : List Tx) : ℕ → ℕ :=
  ts.foldl applyTx f

/-- An all-zero device state used to instantiate theorems at concrete
inputs. -/
def zeroState : DevState :=
  { regs := fun _ => 0, diag := List.replicate 18 0 }

/-- A device state whose config register has an OSDE bit set (value 2),
used to exhibit the non-restoration of the config register. -/
def osdeSetState : DevState :=
  { regs := fun a => if a = addresses.CONFIG_REGISTER then 2 else 0,
    diag := List.replicate 18 0 }

/-- A device state whose config register holds 0xF1 (bit 0 set). -/
def configF1State : DevState :=
  { regs := fun a => if a = addresses.CONFIG_REGISTER then 0xF1 else 0,
    diag := List.replicate 18 0 }

/-- Does a transaction write a (single) byte to a PWM register of
logical column `pos` of the seven-segment device? Its registers are
`1 + pos + 16 * row` with `pos < 16`, so a single-byte write `[r, v]`
targets column `pos` exactly when `1 ≤ r` and `(r - 1) % 16 = pos`. -/
def targetsPos (pos : ℕ) : Tx → Bool
  | Tx.write [r, _] => 1 ≤ r && (r - 1) % 16 == pos
  | _ => false

/-- C1: the claim says the 0xFF block write of `setup` targets the
scaling base register 0x90; in the source, `buf[0]` is set to
`PWM_BASE_REGISTER`, so on every run the fourth transaction of `setup`
is a block write of `SCALING_LEN` bytes of 0xFF starting at register
0x01 (the PWM base), and no transaction of `setup` ever addresses the
scaling base register — contradicting the code's own comment
"scaling registers at max". -/
theorem C1_setup_block_write_targets_pwm_base (s : DevState) :
    (setup s).2[3]? =
      some (Tx.write (addresses.PWM_BASE_REGISTER :: List.replicate addresses.SCALING_LEN 0xFF)) ∧
    addresses.PWM_BASE_REGISTER = 0x01 ∧
    addresses.SCALING_BASE_REGISTER = 0x90 ∧
    ∀ t ∈ (setup s).2, ∀ rest, t ≠ Tx.write (addresses.SCALING_BASE_REGISTER :: rest) := by
  refine ⟨rfl, rfl, rfl, ?_⟩
  intro t ht rest
  simp only [setup, shutdownStep, List.mem_cons, List.not_mem_nil, or_false] at ht
  rcases ht with h | h | h | h | h <;>
    · subst h
      simp [addresses.SCALING_BASE_REGISTER, addresses.RESET_REGISTER,
        addresses.CONFIG_REGISTER, addresses.GCC_REGISTER, addresses.PWM_BASE_REGISTER]

/-- Witness for C1's theorem at the all-zero device state. -/
theorem C1_setup_block_write_targets_pwm_base_witness :
    (setup zeroState).2[3]? =
      some (Tx.write (addresses.PWM_BASE_REGISTER :: List.replicate addresses.SCALING_LEN 0xFF)) ∧
    Tx.write [addresses.RESET_REGISTER, addresses.RESET] ≠
      Tx.write (addresses.SCALING_BASE_REGISTER :: [addresses.RESET]) :=
  ⟨(C1_setup_block_write_targets_pwm_base zeroState).1,
   (C1_setup_block_write_targets_pwm_base zeroState).2.2.2
     (Tx.write [addresses.RESET_REGISTER, addresses.RESET]) (by decide) [addresses.RESET]⟩

/-- C2 counterexample: at `x = width` (boundary value the claim says is
rejected), `pixel` on the seven-segment device succeeds and performs a
bus write, so the claim "x == width … fails with InvalidLocation and
performs no bus write" is false. -/
theorem C2_pixel_at_width_succeeds_counterexample :
    pixel sevenSegDevice 9 0 0x40 = (.ok (), [Tx.write [0x0A, 0x40]]) ∧
    sevenSegDevice.width = 9 := by
  constructor <;> rfl

/-- C2 amended: for every device and brightness, whenever `x > width` or
`y > height`, `pixel` fails with `InvalidLocation` (carrying the
offending coordinate) and performs no bus write; `x == width` /
`y == height` themselves pass the coordinate check. -/
theorem C2_pixel_out_of_bounds_errors (d : IS31FL3729) (x y b : ℕ)
    (h : d.width < x ∨ d.height < y) :
    ∃ v, pixel d x y b = (.error (.InvalidLocation v), []) := by
  unfold pixel
  by_cases hx : d.width < x
  · exact ⟨x, by simp [hx]⟩
  · have hy : d.height < y := h.resolve_left hx
    exact ⟨y, by simp [hx, hy]⟩

/-- Witness for C2's amended theorem at `x = width + 1` on the
seven-segment device. -/
theorem C2_pixel_out_of_bounds_errors_witness :
    ∃ v, pixel sevenSegDevice 10 0 7 = (.error (.InvalidLocation v), []) :=
  C2_pixel_out_of_bounds_errors sevenSegDevice 10 0 7 (Or.inl (by decide))

/-- C3: for in-range coordinates (`x < width`, `y < height`) whose
mapping output is below the PWM table length, `pixel` succeeds and
issues exactly one register write, to `PWM_BASE_REGISTER + calc_pixel x y`,
carrying the given brightness. -/
theorem C3_pixel_in_bounds_single_write (d : IS31FL3729) (x y b : ℕ)
    (hx : x < d.width) (hy : y < d.height)
    (hm : d.calc_pixel x y < addresses.PWM_LEN) :
    pixel d x y b =
      (.ok (), [Tx.write [addresses.PWM_BASE_REGISTER + d.calc_pixel x y, b]]) := by
  have hx' : ¬ d.width < x := by omega
  have hy' : ¬ d.height < y := by omega
  have hm' : ¬ addresses.PWM_LEN ≤ d.calc_pixel x y := by omega
  have hlt : addresses.PWM_BASE_REGISTER + d.calc_pixel x y < 256 := by
    have : addresses.PWM_LEN = 0x8F := rfl
    simp only [addresses.PWM_BASE_REGISTER]
    omega
  simp [pixel, hx', hy', hm', Nat.mod_eq_of_lt hlt]

/-- Witness for C3's theorem at `(x, y) = (2, 3)` on the seven-segment
device, whose mapping gives offset 50. -/
theorem C3_pixel_in_bounds_single_write_witness :
    pixel sevenSegDevice 2 3 7 =
      (.ok (), [Tx.write [addresses.PWM_BASE_REGISTER + sevenSegDevice.calc_pixel 2 3, 7]]) :=
  C3_pixel_in_bounds_single_write sevenSegDevice 2 3 7 (by decide) (by decide) (by decide)

/-- C4 counterexample: starting from config register value 2 (bit 1
set), a fault-free `check_opens` run ends with the config register at 0,
not at its pre-call value — the restore write stores
`old_config & 0xF9`, clearing the OSDE field. -/
theorem C4_check_opens_config_not_restored_counterexample :
    (check_opens osdeSetState).2.regs addresses.CONFIG_REGISTER = 0 ∧
    osdeSetState.regs addresses.CONFIG_REGISTER = 2 := by
  constructor <;> rfl

/-- C4 amended: on a fault-free `check_opens` run, the returned value is
the raw 18-byte diagnostic buffer unmodified, the global-current-control
register is restored exactly, the config register ends at its pre-call
value with the OSDE field (bits 1–2) cleared (`old_config & 0xF9`), and
every other register is unchanged. -/
theorem C4_check_opens_restores (s : DevState) (h : s.diag.length = 18) :
    (check_opens s).1 = s.diag ∧
    (check_opens s).1.length = 18 ∧
    (check_opens s).2.regs addresses.GCC_REGISTER = s.regs addresses.GCC_REGISTER ∧
    (check_opens s).2.regs addresses.CONFIG_REGISTER =
      s.regs addresses.CONFIG_REGISTER &&& 0xF9 ∧
    ∀ r, r ≠ addresses.CONFIG_REGISTER ∧ r ≠ addresses.GCC_REGISTER →
      (check_opens s).2.regs r = s.regs r := by
  refine ⟨rfl, by simpa using h, by simp [check_opens, check_open_short, writeRegS],
    by simp [check_opens, check_open_short, writeRegS, addresses.GCC_REGISTER,
      addresses.CONFIG_REGISTER], ?_⟩
  intro r hr
  simp [check_opens, check_open_short, writeRegS, hr.1, hr.2]

/-- Witness for C4's amended theorem at the all-zero device state. -/
theorem C4_check_opens_restores_witness :
    (check_opens zeroState).1 = zeroState.diag ∧
    (check_opens zeroState).2.regs addresses.GCC_REGISTER =
      zeroState.regs addresses.GCC_REGISTER :=
  ⟨(C4_check_opens_restores zeroState (by simp [zeroState])).1,
   (C4_check_opens_restores zeroState (by simp [zeroState])).2.2.1⟩

/-- C5 counterexample: from initial config register 0 (bit 0 clear),
`shutdown(true)` followed by `shutdown(false)` ends with config bit 0
equal to 1, not its pre-call value 0. -/
theorem C5_shutdown_roundtrip_counterexample :
    (shutdown (shutdown zeroState true) false).regs addresses.CONFIG_REGISTER &&& 1 = 1 ∧
    zeroState.regs addresses.CONFIG_REGISTER &&& 1 = 0 := by
  constructor <;> rfl

set_option maxRecDepth 4096 in
/-- The `shutdown(true); shutdown(false)` register round trip on a
single byte: when bit 0 starts at 1, the byte is restored exactly. -/
theorem shutdown_byte_roundtrip :
    ∀ c : Fin 256, c.val &&& 1 = 1 →
      ((((c.val &&& 0xFE) ||| 0) &&& 0xFE) ||| 1) = c.val := by
  decide

/-- C5 amended: provided the config register starts with bit 0 set (the
chip out of shutdown) and holds a byte, `shutdown(true)` then
`shutdown(false)` restores config bit 0 — indeed the whole register — to
its pre-call value; from bit 0 clear the sequence instead ends with
bit 0 = 1 (see the counterexample). -/
theorem C5_shutdown_roundtrip_restores_bit0 (s : DevState)
    (hbyte : s.regs addresses.CONFIG_REGISTER < 256)
    (hbit : s.regs addresses.CONFIG_REGISTER &&& 1 = 1) :
    (shutdown (shutdown s true) false).regs addresses.CONFIG_REGISTER =
      s.regs addresses.CONFIG_REGISTER ∧
    (shutdown (shutdown s true) false).regs addresses.CONFIG_REGISTER &&& 1 =
      s.regs addresses.CONFIG_REGISTER &&& 1 := by
  have key := shutdown_byte_roundtrip ⟨s.regs addresses.CONFIG_REGISTER, hbyte⟩ hbit
  have hfix : (shutdown (shutdown s true) false).regs addresses.CONFIG_REGISTER =
      (((s.regs addresses.CONFIG_REGISTER &&& 0xFE) ||| 0) &&& 0xFE) ||| 1 := by
    simp [shutdown, shutdownStep, writeRegS]
  rw [hfix, key]
  exact ⟨rfl, rfl⟩

/-- Witness for C5's amended theorem at a state with config register
0xF1 (bit 0 set). -/
theorem C5_shutdown_roundtrip_restores_bit0_witness :
    (shutdown (shutdown configF1State true) false).regs addresses.CONFIG_REGISTER =
      configF1State.regs addresses.CONFIG_REGISTER :=
  (C5_shutdown_roundtrip_restores_bit0 configF1State (by decide) (by decide)).1

/-- C8: glyph values wrap modulo 36: `set_digit(pos, 36, false)`
performs exactly the same sequence of pixel writes (and returns the same
result) as `set_digit(pos, 0, false)`, on every device and at every
position. -/
theorem C8_set_digit_wraps_mod_36 (d : IS31FL3729) (pos : ℕ) :
    set_digit d pos 36 false = set_digit d pos 0 false := by
  unfold set_digit segBright
  norm_num

/-- C9: `fill_matrix` requires at least `PWM_LEN = 0x8F` input bytes:
with that many it sends the first `PWM_LEN` bytes (preceded by the PWM
base register) in one transaction, and with fewer the slice operation
`brightnesses[..=PWM_LEN-1]` is out of bounds and no write is completed
(modelled as `none`). -/
theorem C9_fill_matrix_length_boundary (bs : List ℕ) :
    (addresses.PWM_LEN ≤ bs.length →
      fill_matrix bs =
        some [Tx.write (addresses.PWM_BASE_REGISTER :: bs.take addresses.PWM_LEN)]) ∧
    (bs.length < addresses.PWM_LEN → fill_matrix bs = none) := by
  constructor
  · intro h
    simp [fill_matrix, h]
  · intro h
    have h' : ¬ addresses.PWM_LEN ≤ bs.length := by omega
    simp [fill_matrix, h']

/-- Witness for C9's theorem: a 0x8F-byte input is sent, a 2-byte input
is a boundary error. -/
theorem C9_fill_matrix_length_boundary_witness :
    fill_matrix (List.replicate 0x8F 7) =
      some [Tx.write (addresses.PWM_BASE_REGISTER ::
        (List.replicate 0x8F 7).take addresses.PWM_LEN)] ∧
    fill_matrix [1, 2] = none :=
  ⟨(C9_fill_matrix_length_boundary (List.replicate 0x8F 7)).1
      (by simp [addresses.PWM_LEN]),
   (C9_fill_matrix_length_boundary [1, 2]).2 (by decide)⟩

/-- C10: `set_scaling` performs no bounds check: for every `cs` and
`scale` it issues exactly one write, to register `(0x90 + cs) % 256`
(8-bit arithmetic); in particular `cs = 16` addresses the config
register 0xA0, and for `cs ≥ 0x70` the 8-bit register-address addition
overflows (`0x90 + cs ≥ 256`). -/
theorem C10_set_scaling_no_bounds_check (cs scale : ℕ) :
    set_scaling cs scale =
      [Tx.write [(addresses.SCALING_BASE_REGISTER + cs) % 256, scale]] ∧
    (addresses.SCALING_BASE_REGISTER + 16) % 256 = addresses.CONFIG_REGISTER ∧
    (0x70 ≤ cs → 256 ≤ addresses.SCALING_BASE_REGISTER + cs) := by
  refine ⟨rfl, rfl, ?_⟩
  intro h
  simp only [addresses.SCALING_BASE_REGISTER]
  omega

/-- Witness for C10's theorem at `cs = 0x70`, where the 8-bit address
addition wraps to register 0. -/
theorem C10_set_scaling_no_bounds_check_witness :
    set_scaling 0x70 9 =
      [Tx.write [(addresses.SCALING_BASE_REGISTER + 0x70) % 256, 9]] ∧
    256 ≤ addresses.SCALING_BASE_REGISTER + 0x70 :=
  ⟨(C10_set_scaling_no_bounds_check 0x70 9).1,
   (C10_set_scaling_no_bounds_check 0x70 9).2.2 (by decide)⟩

/-- Trace of a single `pixel` call on the seven-segment device at
in-range coordinates: one write to register `1 + x + 16y`. -/
theorem pixel_ss (x y b : ℕ) (hx : x ≤ 9) (hy : y ≤ 8) :
    pixel sevenSegDevice x y b = (.ok (), [Tx.write [1 + (x + 16 * y), b]]) := by
  have h1 : (x + 0x10 * y) % 256 = x + 16 * y := Nat.mod_eq_of_lt (by omega)
  have h2 : ¬ (9 < x) := by omega
  have h3 : ¬ (8 < y) := by omega
  have h4 : ¬ (addresses.PWM_LEN ≤ (x + 0x10 * y) % 256) := by
    rw [h1]; simp only [addresses.PWM_LEN]; omega
  have h5 : (addresses.PWM_BASE_REGISTER + (x + 0x10 * y) % 256) % 256
      = 1 + (x + 16 * y) := by
    rw [h1]; simp only [addresses.PWM_BASE_REGISTER]
    exact Nat.mod_eq_of_lt (by omega)
  simp [pixel, sevenSegDevice, h2, h3, h4, h5]

/-- Trace of `set_digit` on the seven-segment device at an in-range
position: the 7 glyph-segment writes in row order followed by the
decimal-point write at row 7. -/
theorem set_digit_ss (w v : ℕ) (p : Bool) (hw : w ≤ 9) :
    set_digit sevenSegDevice w v p =
      (.ok (), ((List.range 7).map fun seg => Tx.write [1 + (w + 16 * seg), segBright v seg]) ++
        [Tx.write [1 + (w + 16 * 7), if p then 0xFF else 0x00]]) := by
  simp [set_digit, List.range_succ, pixel_ss, hw, seqAll]

/-- `seqAll` over three steps whose first two succeed: the result of the
third step, with the three traces concatenated. -/
theorem seqAll_three (s1 s2 s3 : Except Error Unit × List Tx)
    (h1 : s1.1 = .ok ()) (h2 : s2.1 = .ok ()) :
    seqAll [s1, s2, s3] = (s3.1, s1.2 ++ (s2.2 ++ s3.2)) := by
  obtain ⟨r1, t1⟩ := s1
  obtain ⟨r2, t2⟩ := s2
  obtain ⟨r3, t3⟩ := s3
  simp only at h1 h2
  subst h1 h2
  cases r3 with
  | error e => simp [seqAll]
  | ok u => simp [seqAll]

/-- `set_digit` succeeds at every in-range position of the seven-segment
device. -/
theorem set_digit_ok (w v : ℕ) (p : Bool) (hw : w ≤ 9) :
    (set_digit sevenSegDevice w v p).1 = .ok () := by
  rw [set_digit_ss w v p hw]

/-- Replaying a concatenated trace replays its parts in order. -/
theorem applyTxs_append (f : ℕ → ℕ) (ts us : List Tx) :
    applyTxs f (ts ++ us) = applyTxs (applyTxs f ts) us :=
  List.foldl_append applyTx f ts us

/-- Closed form of replaying one `set_digit` trace against a register
file: the 8 rows of the position take the glyph (and decimal-point)
values, later writes shadowing earlier ones, and every other register is
untouched. -/
theorem applyTxs_sd (w v : ℕ) (p : Bool) (f : ℕ → ℕ) (hw : w ≤ 9) :
    applyTxs f (set_digit sevenSegDevice w v p).2 =
      fun a =>
        if a = 1 + (w + 16 * 7) then (if p then 0xFF else 0x00)
        else if a = 1 + (w + 16 * 6) then segBright v 6
        else if a = 1 + (w + 16 * 5) then segBright v 5
        else if a = 1 + (w + 16 * 4) then segBright v 4
        else if a = 1 + (w + 16 * 3) then segBright v 3
        else if a = 1 + (w + 16 * 2) then segBright v 2
        else if a = 1 + (w + 16 * 1) then segBright v 1
        else if a = 1 + (w + 16 * 0) then segBright v 0
        else f a := by
  have m : ∀ k : ℕ, k ≤ 7 → (1 + (w + 16 * k)) % 256 = 1 + (w + 16 * k) := by
    intro k hk; exact Nat.mod_eq_of_lt (by omega)
  rw [set_digit_ss w v p hw]
  simp only [List.range_succ, List.range_zero, List.nil_append, List.map_append,
    List.map_cons, List.map_nil, List.cons_append, List.singleton_append]
  simp only [applyTxs, List.foldl_cons, List.foldl_nil, applyTx, applyWrite,
    m 0 (by omega), m 1 (by omega), m 2 (by omega), m 3 (by omega),
    m 4 (by omega), m 5 (by omega), m 6 (by omega), m 7 (by omega)]

/-- In the mid range, `val / 10` casts to `u8` as the plain floor: it
lies in `[1, 10)`, so neither the negative nor the saturating branch of
the cast applies. -/
theorem f32_conv_div (val : ℚ) (h10 : 10 ≤ val) (h100 : val < 100) :
    f32_to_u8 (val / 10) = Int.toNat ⌊val / 10⌋ := by
  have hpos : ¬ (val / 10 ≤ 0) := by intro h; nlinarith
  have hfl : ⌊val / 10⌋ < 10 := by
    rw [Int.floor_lt]; push_cast; linarith
  have : Int.toNat ⌊val / 10⌋ ≤ 255 := by omega
  simp [f32_to_u8, hpos, Nat.min_eq_right this]

/-- In the mid range, `val` casts to `u8` as the plain floor. -/
theorem f32_conv_val (val : ℚ) (h10 : 10 ≤ val) (h100 : val < 100) :
    f32_to_u8 val = Int.toNat ⌊val⌋ := by
  have hpos : ¬ (val ≤ 0) := by intro h; linarith
  have hfl : ⌊val⌋ < 100 := by rw [Int.floor_lt]; push_cast; linarith
  have : Int.toNat ⌊val⌋ ≤ 255 := by omega
  simp [f32_to_u8, hpos, Nat.min_eq_right this]

/-- For `val ≥ 10`, `10 * val` casts to `u8` as the floor saturated at
255. -/
theorem f32_conv_tenths (val : ℚ) (h10 : 10 ≤ val) :
    f32_to_u8 (10 * val) = min (Int.toNat ⌊10 * val⌋) 255 := by
  have hpos : ¬ (10 * val ≤ 0) := by intro h; linarith
  simp [f32_to_u8, hpos, Nat.min_comm]

/-- C6 counterexample: at `value = 5 < 10`, `set_percent` does write the
decimal-point segment (row 7) of the first digit position of group 0 —
register `1 + (0 + 16·7) = 113` — with brightness 0, because the
blanking loop of the source runs over `0..8`, not `0..7`. -/
theorem C6_set_percent_writes_decimal_point_counterexample :
    Tx.write [1 + (0 * 3 + 16 * 7), 0x00] ∈ (set_percent sevenSegDevice 0 (5 : ℚ)).2 := by
  decide

/-- C6 amended: for every group `which ≤ 2` and every `value < 10`, the
writes of `set_percent` that target the group's first digit position are
exactly eight brightness-0 writes, one per row 0–7 — all 7 glyph
segments and additionally the decimal-point segment. -/
theorem C6_set_percent_blanks_eight_rows (which : ℕ) (val : ℚ)
    (hw : which ≤ 2) (hv : val < 10) :
    ((set_percent sevenSegDevice which val).2.filter (targetsPos (3 * which))) =
      (List.range 8).map fun seg => Tx.write [1 + (3 * which + 16 * seg), 0x00] := by
  have h100 : ¬ (100 ≤ val) := by intro h; linarith
  interval_cases which <;>
  · by_cases h0 : (0 : ℚ) < val <;>
      simp [set_percent, h100, hv, h0, List.range_succ, pixel_ss, set_digit_ss, seqAll,
        targetsPos]

/-- Witness for C6's amended theorem at group 0 and `value = 5`. -/
theorem C6_set_percent_blanks_eight_rows_witness :
    ((set_percent sevenSegDevice 0 (5 : ℚ)).2.filter (targetsPos (3 * 0))) =
      (List.range 8).map fun seg => Tx.write [1 + (3 * 0 + 16 * seg), 0x00] :=
  C6_set_percent_blanks_eight_rows 0 5 (by omega) (by norm_num)

/-- C7 counterexample: at `value = 50` the third `set_digit` call does
not show `floor(value·10) mod 10 = 0`: the `f32 → u8` cast saturates
`500` to `255`, so the digit shown is `255 mod 10 = 5`, and the actual
trace differs from the trace the claim predicts. -/
theorem C7_set_percent_claimed_digits_counterexample :
    f32_to_u8 (10 * (50 : ℚ)) % 10 = 5 ∧
    Int.toNat ⌊10 * (50 : ℚ)⌋ % 10 = 0 ∧
    (set_percent sevenSegDevice 0 (50 : ℚ)).2 ≠
      (set_digit sevenSegDevice 0 (Int.toNat ⌊(50 : ℚ) / 10⌋ % 10) false).2 ++
      ((set_digit sevenSegDevice 0 (Int.toNat ⌊(50 : ℚ)⌋ % 10) true).2 ++
       (set_digit sevenSegDevice 0 (Int.toNat ⌊10 * (50 : ℚ)⌋ % 10) false).2) := by
  have e1 : f32_to_u8 ((50 : ℚ) / 10) = 5 := by norm_num [f32_to_u8]; decide
  have e2 : f32_to_u8 (50 : ℚ) = 50 := by norm_num [f32_to_u8]; decide
  have e3 : f32_to_u8 (10 * (50 : ℚ)) = 255 := by norm_num [f32_to_u8]
  have g1 : (⌊(50 : ℚ) / 10⌋ : ℤ) = 5 := by norm_num
  have g2 : (⌊(50 : ℚ)⌋ : ℤ) = 50 := by norm_num
  have g3 : (⌊10 * (50 : ℚ)⌋ : ℤ) = 500 := by norm_num
  have hA : ¬ ((100 : ℚ) ≤ 50) := by norm_num
  have hB : ¬ ((50 : ℚ) < 10) := by norm_num
  refine ⟨by rw [e3], by rw [g3]; decide, ?_⟩
  rw [show (set_percent sevenSegDevice 0 (50 : ℚ)).2 =
      (seqAll [set_digit sevenSegDevice 0 (f32_to_u8 ((50 : ℚ) / 10) % 10) false,
               set_digit sevenSegDevice 0 (f32_to_u8 (50 : ℚ) % 10) true,
               set_digit sevenSegDevice 0 (f32_to_u8 (10 * (50 : ℚ)) % 10) false]).2 by
    simp [set_percent, hA, hB]]
  rw [seqAll_three _ _ _ (set_digit_ok _ _ _ (by norm_num)) (set_digit_ok _ _ _ (by norm_num))]
  rw [e1, e2, e3, g1, g2, g3]
  simp only [set_digit_ss _ _ _ (show (0 : ℕ) ≤ 9 by norm_num)]
  decide

/-- C7 amended: for `10 ≤ value < 100` and a group `which ≤ 3`,
`set_percent` issues three `set_digit` renderings that all target the
group's base position, in order: `⌊value/10⌋ mod 10` with decimal point
off, then `⌊value⌋ mod 10` with decimal point on, then
`min(⌊value·10⌋, 255) mod 10` (the u8-saturating cast) with decimal
point off; consequently replaying the whole trace on any register file
leaves exactly what the third rendering alone would leave — the last
write is the one retained per segment. -/
theorem C7_set_percent_mid_range_overwrites (which : ℕ) (val : ℚ)
    (hw : which ≤ 3) (h10 : 10 ≤ val) (h100 : val < 100) :
    (set_percent sevenSegDevice which val).2 =
      (set_digit sevenSegDevice (3 * which) (Int.toNat ⌊val / 10⌋ % 10) false).2 ++
      ((set_digit sevenSegDevice (3 * which) (Int.toNat ⌊val⌋ % 10) true).2 ++
       (set_digit sevenSegDevice (3 * which) (min (Int.toNat ⌊10 * val⌋) 255 % 10) false).2) ∧
    ∀ f : ℕ → ℕ,
      applyTxs f (set_percent sevenSegDevice which val).2 =
        applyTxs f
          (set_digit sevenSegDevice (3 * which) (min (Int.toNat ⌊10 * val⌋) 255 % 10) false).2 := by
  have hb : which * 3 % 256 = 3 * which := by omega
  have h100' : ¬ (100 ≤ val) := by intro h; linarith
  have h10' : ¬ (val < 10) := by intro h; linarith
  have hw9 : 3 * which ≤ 9 := by omega
  have htrace : (set_percent sevenSegDevice which val).2 =
      (set_digit sevenSegDevice (3 * which) (Int.toNat ⌊val / 10⌋ % 10) false).2 ++
      ((set_digit sevenSegDevice (3 * which) (Int.toNat ⌊val⌋ % 10) true).2 ++
       (set_digit sevenSegDevice (3 * which) (min (Int.toNat ⌊10 * val⌋) 255 % 10) false).2) := by
    simp only [set_percent, h100', h10', if_false, hb,
      f32_conv_div val h10 h100, f32_conv_val val h10 h100, f32_conv_tenths val h10]
    rw [seqAll_three _ _ _ (set_digit_ok _ _ _ hw9) (set_digit_ok _ _ _ hw9)]
  refine ⟨htrace, ?_⟩
  intro f
  rw [htrace, applyTxs_append, applyTxs_append,
    applyTxs_sd _ _ _ _ hw9, applyTxs_sd _ _ _ _ hw9,
    applyTxs_sd _ _ _ _ hw9, applyTxs_sd _ _ _ _ hw9]
  funext a
  simp only []
  split_ifs <;> rfl

/-- Witness for C7's amended theorem at group 0 and `value = 42`. -/
theorem C7_set_percent_mid_range_overwrites_witness :
    (set_percent sevenSegDevice 0 (42 : ℚ)).2 =
      (set_digit sevenSegDevice (3 * 0) (Int.toNat ⌊(42 : ℚ) / 10⌋ % 10) false).2 ++
      ((set_digit sevenSegDevice (3 * 0) (Int.toNat ⌊(42 : ℚ)⌋ % 10) true).2 ++
       (set_digit sevenSegDevice (3 * 0)
         (min (Int.toNat ⌊10 * (42 : ℚ)⌋) 255 % 10) false).2) ∧
    applyTxs (fun _ => 0) (set_percent sevenSegDevice 0 (42 : ℚ)).2 =
      applyTxs (fun _ => 0)
        (set_digit sevenSegDevice (3 * 0)
          (min (Int.toNat ⌊10 * (42 : ℚ)⌋) 255 % 10) false).2 :=
  ⟨(C7_set_percent_mid_range_overwrites 0 42 (by omega) (by norm_num) (by norm_num)).1,
   (C7_set_percent_mid_range_overwrites 0 42 (by omega) (by norm_num) (by norm_num)).2
     (fun _ => 0)⟩

end IS31FL3729Drv
